import Mathlib

/-!
Shallow embedding of the `tudelft-nes-test` conformance-test harness
(src/lib.rs and src/all_instrs.rs), together with theorems settling the
frozen claims about its specification.

Modelling conventions:
* a processor memory is a function from addresses to bytes (`Mem`);
* the stepping engine (`run_cpu_headless_for`, external to this crate) is
  abstracted as a state-transition function `CpuModel.step` returning the
  post-step state and an optional crash/timeout message, exactly the
  information the harness observes from it;
* a spawned test thread is observed by the harness only through
  `JoinHandle::join`, modelled as `JoinResult` (normal result, or a panic
  payload that the thread boundary captured);
* Rust `Result<(), E>` becomes `Except E Unit`;
* the executed-chunk / executed-test counts added to the loop and the
  orchestrator are observation instrumentation: they record how many
  stepping calls, resp. which tests, actually ran, and change no result.
-/

abbrev Byte := Fin 256

abbrev Mem := Nat → Byte

/-- The error enum of src/lib.rs lines 201-207: two variants, both plain
message carriers.  `Custom` is produced for construction and stepping-engine
failures (the harness-level channel), `String` for decoded test failures. -/
abbrev ErrMsg := String

inductive TestError where
  | Custom (e : ErrMsg)
  | String (e : ErrMsg)
deriving DecidableEq

def TestError.msg : TestError → ErrMsg
  | TestError.Custom e => e
  | TestError.String e => e

/-- Lowercase hex rendering of a byte value, as Rust write of {:x}. -/
def hexStr (n : Nat) : String := (Nat.toDigits 16 n).asString

/-- Helper for `read_status_string`: scan a list of addresses, stop at the
first NUL byte, convert each byte to a char (always valid for a byte). -/
def read_status_chars (m : Mem) : List Nat → List Char
  | [] => []
  | a :: rest =>
    if (m a).val = 0 then []
    else Char.ofNat (m a).val :: read_status_chars m rest

/-- src/all_instrs.rs lines 25-37: read the NUL-terminated diagnostic text
from 0x6004 up to and including 0x7000 (4093 addresses). -/
def read_status_string (m : Mem) : String :=
  ⟨read_status_chars m (List.range' 0x6004 0xFFD)⟩

/-- src/all_instrs.rs lines 3-23: the magic-prefixed status decoder. -/
def all_instrs_status_code (m : Mem) : Except TestError Unit :=
  let status := m 0x6000
  let m1 := m 0x6001
  let m2 := m 0x6002
  let m3 := m 0x6003
  if m1.val ≠ 0xde ∨ m2.val ≠ 0xb0 ∨ m3.val ≠ 0x61 then
    Except.error (TestError.String ("invalid magic sequence: " ++ hexStr m1.val ++ hexStr m2.val ++ hexStr m3.val ++ ". the test output was corrupted"))
  else if status.val = 0 then Except.ok ()
  else
    Except.error (TestError.String ("exited with status " ++ toString status.val ++ (":\n " ++ read_status_string m)))

/-- Substring containment, as Rust str contains with a literal pattern. -/
def containsSub (s pat : String) : Bool := decide (pat.data <:+: s.data)

/-- First line of a string: Rust split at newline, first element. -/
def firstLine (s : String) : String := ⟨s.data.takeWhile (fun c => c ≠ '\n')⟩

/-- src/lib.rs line 105: the polling early-exit predicate actually used by
the loop — the whole decoded status text contains the marker. -/
def early_exit (t : String) : Bool := containsSub t ("Failed")

/-- The early-exit predicate as the spec words it (only for comparison with
`early_exit`): the first line of the text contains the marker. -/
def spec_early_exit (t : String) : Bool := containsSub (firstLine t) ("Failed")

/-- Result of joining a test thread: either the value the closure returned,
or the payload of a panic that the thread boundary captured (src/lib.rs
lines 222-227 recover a str or String payload when present). -/
inductive JoinResult where
  | ok (r : Except TestError Unit)
  | panicked (payload : Option String)

/-- src/lib.rs lines 209-234: turn the join result of one test thread into
the per-test outcome string. -/
def process_handle (name : String) (handle : JoinResult) : Except String Unit :=
  match handle with
  | JoinResult.ok (Except.ok _) => Except.ok ()
  | JoinResult.ok (Except.error (TestError.Custom e)) =>
      Except.error ("cpu failed while running test " ++ name ++ (" with custom error message " ++ e))
  | JoinResult.ok (Except.error (TestError.String e)) =>
      Except.error ("cpu didn\x27t pass test " ++ name ++ (": \x27" ++ e ++ "\x27"))
  | JoinResult.panicked p =>
      Except.error ("cpu implementation panicked while running test " ++ name ++ (": " ++ p.getD ("<No panic info>")))

def TestSelector.NESTEST : Nat := 1

def TestSelector.ALL_INSTRS : Nat := 2

def TestSelector.OFFICIAL_INSTRS : Nat := 4

def TestSelector.NROM_TEST : Nat := 8

/-- src/lib.rs line 44: ALL is the union of NESTEST, ALL_INSTRS and
NROM_TEST (the OFFICIAL_INSTRS bit is absent). -/
def TestSelector.ALL : Nat := TestSelector.NESTEST ||| TestSelector.ALL_INSTRS ||| TestSelector.NROM_TEST

/-- src/lib.rs line 47: the curated default subset. -/
def TestSelector.DEFAULT : Nat := TestSelector.OFFICIAL_INSTRS ||| TestSelector.NROM_TEST

/-- src/lib.rs lines 51-55: the Default impl returns DEFAULT. -/
def TestSelector.default : Nat := TestSelector.DEFAULT

/-- bitflags contains: all bits of the flag are set in the selector. -/
def TestSelector.contains (s flag : Nat) : Bool := s &&& flag == flag

/-- src/lib.rs lines 132-140: the name under which the all-instructions run
is reported, depending on the only-official variant. -/
def testName (only_official : Bool) : String :=
  "all instructions" ++ (if only_official then (" (official only)") else (""))

/-- One whole-harness run, abstracted to the join result each test thread
would produce.  `run_tests` only ever observes a test through
`process_handle` of its join result, so this is the interface it sees. -/
structure HarnessRun where
  all_instrs : Bool → JoinResult
  nestest : JoinResult
  nrom_test : JoinResult

/-- The fixed catalog, in the order run_tests checks the selector bits
(src/lib.rs lines 58-76): ALL_INSTRS, OFFICIAL_INSTRS, NESTEST, NROM_TEST. -/
def catalog (h : HarnessRun) : List (Nat × String × JoinResult) :=
  [ (TestSelector.ALL_INSTRS, testName false, h.all_instrs false),
    (TestSelector.OFFICIAL_INSTRS, testName true, h.all_instrs true),
    (TestSelector.NESTEST, "nestest", h.nestest),
    (TestSelector.NROM_TEST, "nrom_test", h.nrom_test) ]

/-- The catalog entries whose selector bit is set, in catalog order. -/
def enabledTests (h : HarnessRun) (sel : Nat) : List (String × JoinResult) :=
  (catalog h).filterMap (fun t => if TestSelector.contains sel t.1 then some t.2 else none)

/-- Sequential fail-fast execution of a list of tests: each is surfaced via
`process_handle`; the first error aborts the run (the Rust question-mark
operator).  The second component records which tests actually ran. -/
def runSeq : List (String × JoinResult) → Except String Unit × List String
  | [] => (Except.ok (), [])
  | (n, j) :: rest =>
    match process_handle n j with
    | Except.error e => (Except.error e, [n])
    | Except.ok _ => ((runSeq rest).1, n :: (runSeq rest).2)

/-- src/lib.rs lines 58-76: the orchestrator. -/
def run_tests (h : HarnessRun) (sel : Nat) : Except String Unit × List String :=
  runSeq (enabledTests h sel)

/-- Abstraction of the processor under test plus the external stepping
engine: one `step` is one bounded `run_cpu_headless_for` call, returning a
crash/timeout message when the engine reports one, and always the post-call
processor state; `mem` reads the memory of a state. -/
structure CpuModel (σ : Type) where
  step : σ → Option String × σ
  mem : σ → Mem

/-- src/lib.rs lines 94-100 and 120-126: the error built when the stepping
engine reports a crash/timeout — always the Custom (harness-level) variant,
with the secondary decode appended as a hint when it yields an error. -/
def stepFailError {σ : Type} (M : CpuModel σ) (s : σ) (e1 : String) : TestError :=
  match all_instrs_status_code (M.mem s) with
  | Except.error e2 =>
      TestError.Custom (e1 ++ (", possibly due to a test that didn\x27t pass: \x27" ++ TestError.msg e2 ++ "\x27"))
  | Except.ok _ => TestError.Custom e1

/-- src/lib.rs lines 92-114: the polling loop of `all_instrs`.  The fuel is
the chunk limit (350 or 500); the Nat component counts stepping calls. -/
def all_instrs_loop {σ : Type} (M : CpuModel σ) : Nat → σ → Except TestError σ × Nat
  | 0, s => (Except.ok s, 0)
  | fuel + 1, s =>
    match M.step s with
    | (some e1, s1) => (Except.error (stepFailError M s1 e1), 1)
    | (none, s1) =>
      if early_exit (read_status_string (M.mem s1)) then (Except.ok s1, 1)
      else ((all_instrs_loop M fuel s1).1, (all_instrs_loop M fuel s1).2 + 1)

/-- src/lib.rs lines 87-130: the whole `all_instrs` thread body — the
polling loop, then one final stepping call, then the final decode.  The Nat
component counts stepping calls. -/
def all_instrs_run {σ : Type} (M : CpuModel σ) (limit : Nat) (s0 : σ) : Except TestError Unit × Nat :=
  match all_instrs_loop M limit s0 with
  | (Except.error e, n) => (Except.error e, n)
  | (Except.ok s, n) =>
    match M.step s with
    | (some e1, s1) => (Except.error (stepFailError M s1 e1), n + 1)
    | (none, s1) => (all_instrs_status_code (M.mem s1), n + 1)

/-- Modelled from the spec: the two-byte result-code decoder
`nestest_status_code` lives in src/nestest.rs, which is absent from src/
(only its caller in src/lib.rs lines 147-173 is present).  Per the spec,
two fixed addresses hold a 16-bit result code (low byte at 0x0002, high
byte at 0x0003); the designated success value (0, the nestest convention)
decodes to Pass, and every other value decodes to Fail with a diagnostic
stating the literal observed 16-bit value. -/
def nestest_status_code (low high : Byte) : Except TestError Unit :=
  let value : Nat := low.val + 256 * high.val
  if value = 0 then Except.ok ()
  else Except.error (TestError.String ("nestest exited with unknown result code " ++ toString value))

/-- The nestest verdict rule applied to a memory state (src/lib.rs lines
159 and 168 pass the bytes at 0x0002 and 0x0003). -/
def nestest_decode (m : Mem) : Except TestError Unit :=
  nestest_status_code (m 0x0002) (m 0x0003)

/-- src/lib.rs lines 147-173: the `nestest` thread body — one fixed-budget
stepping call, then the decode; on an engine-reported crash the same
hint-appending Custom error as in `all_instrs`. -/
def nestest_run {σ : Type} (M : CpuModel σ) (s0 : σ) : Except TestError Unit :=
  match M.step s0 with
  | (some e1, s1) =>
    match nestest_decode (M.mem s1) with
    | Except.error e2 =>
        Except.error (TestError.Custom (e1 ++ (", possibly due to a test that didn\x27t pass: \x27" ++ TestError.msg e2 ++ "\x27")))
    | Except.ok _ => Except.error (TestError.Custom e1)
  | (none, s1) => nestest_decode (M.mem s1)

/-- Discriminator: is a decode/run result the Custom (harness-level) error
variant? -/
def errIsCustom {α : Type} : Except TestError α → Bool
  | Except.error (TestError.Custom _) => true
  | _ => false

/-- Build a memory holding a well-formed magic-prefixed record at 0x6000:
a status byte, the three magic bytes, and a NUL-terminated text. -/
def mkRecord (status : Byte) (text : List Byte) : Mem := fun a =>
  if a = 0x6000 then status
  else if a = 0x6001 then 0xde
  else if a = 0x6002 then 0xb0
  else if a = 0x6003 then 0x61
  else if 0x6004 ≤ a then text.getD (a - 0x6004) 0
  else 0

def strBytes (s : String) : List Byte := s.data.map (fun c => Fin.ofNat c.toNat)

/-- Concrete memory trace for the polling scenario: the diagnostic text is
empty after chunk 1, reads "Failed" after chunk 2, and "Failed #2" after
chunk 3; the status byte is nonzero throughout. -/
def c3mem : Nat → Mem
  | 2 => mkRecord 1 (strBytes ("Failed"))
  | 3 => mkRecord 1 (strBytes ("Failed #2"))
  | _ => mkRecord 1 []

/-- Stub processor whose state is the number of stepping calls so far and
whose memory follows `c3mem`; every stepping call succeeds. -/
def C3model : CpuModel Nat := ⟨fun n => (none, n + 1), c3mem⟩

/-- Concrete memory trace where, after chunk 1, the marker word appears only
on the second line of the diagnostic text. -/
def c4mem : Nat → Mem
  | 1 => mkRecord 1 (strBytes ("ok\nFailed"))
  | _ => mkRecord 1 []

def C4model : CpuModel Nat := ⟨fun n => (none, n + 1), c4mem⟩

/-- Stub processor whose stepping engine reports a crash on every call while
memory always holds a decodable failing record. -/
def C6model : CpuModel Nat :=
  ⟨fun n => (some ("engine reported a crash"), n + 1), fun _ => mkRecord 1 (strBytes ("Bad"))⟩

/-- Variant of `C6model` whose memory also carries a failing nestest
result code (low byte 4 at 0x0002). -/
def C6wModel : CpuModel Nat :=
  ⟨fun n => (some ("engine reported a crash"), n + 1),
   fun _ a => if a = 0x0002 then (4 : Byte) else mkRecord 1 (strBytes ("Bad")) a⟩

/-- A record whose third magic byte is wrong (0x62 instead of 0x61). -/
def badMagicMem : Mem := fun a => if a = 0x6003 then (0x62 : Byte) else mkRecord 1 [] a

/-- A record whose first magic byte is wrong (0 instead of 0xde); the status
byte is 0, so only the magic is corrupt. -/
def badMagicMem2 : Mem := fun a => if a = 0x6001 then (0 : Byte) else mkRecord 0 [] a

/-- A harness run in which the nestest thread reports a decoded test
failure and every other test passes. -/
def hDemo5 : HarnessRun :=
  ⟨fun _ => JoinResult.ok (Except.ok ()),
   JoinResult.ok (Except.error (TestError.String ("oops"))),
   JoinResult.ok (Except.ok ())⟩

/-- A harness run in which the nrom test thread panicked with a payload and
every other test passes. -/
def hPanic : HarnessRun :=
  ⟨fun _ => JoinResult.ok (Except.ok ()),
   JoinResult.ok (Except.ok ()),
   JoinResult.panicked (some ("index out of bounds"))⟩

/-- A harness run in which every test thread returns success. -/
def hAllOk : HarnessRun :=
  ⟨fun _ => JoinResult.ok (Except.ok ()),
   JoinResult.ok (Except.ok ()),
   JoinResult.ok (Except.ok ())⟩

theorem containsSub_of_within (s pat : String) (h : pat.data <:+: s.data) :
    containsSub s pat = true :=
  decide_eq_true h

theorem containsSub_mid (a pat b : String) : containsSub (a ++ pat ++ b) pat = true :=
  containsSub_of_within _ _ ⟨a.data, b.data, by simp⟩

theorem process_handle_error_contains (name : String) (j : JoinResult) (e : String)
    (h : process_handle name j = Except.error e) : containsSub e name = true := by
  cases j with
  | ok r =>
    cases r with
    | ok u => simp [process_handle] at h
    | error te =>
      cases te with
      | Custom m =>
        simp only [process_handle] at h
        injection h with h'
        subst h'
        exact containsSub_mid _ _ _
      | String m =>
        simp only [process_handle] at h
        injection h with h'
        subst h'
        exact containsSub_mid _ _ _
  | panicked p =>
    simp only [process_handle] at h
    injection h with h'
    subst h'
    exact containsSub_mid _ _ _

theorem runSeq_ok_iff (l : List (String × JoinResult)) :
    (runSeq l).1 = Except.ok () ↔ ∀ x ∈ l, process_handle x.1 x.2 = Except.ok () := by
  induction l with
  | nil => simp [runSeq]
  | cons a rest ih =>
    obtain ⟨n, j⟩ := a
    cases hph : process_handle n j with
    | error e => simp [runSeq, hph]
    | ok u =>
      cases u
      simp [runSeq, hph, ih]

theorem runSeq_fail_at (l1 : List (String × JoinResult)) (x : String × JoinResult)
    (l2 : List (String × JoinResult)) (e : String)
    (h1 : ∀ y ∈ l1, process_handle y.1 y.2 = Except.ok ())
    (hx : process_handle x.1 x.2 = Except.error e) :
    runSeq (l1 ++ x :: l2) = (Except.error e, l1.map Prod.fst ++ [x.1]) := by
  induction l1 with
  | nil =>
    obtain ⟨n, j⟩ := x
    simp [runSeq, hx]
  | cons a t ih =>
    obtain ⟨n, j⟩ := a
    have ha : process_handle n j = Except.ok () := h1 (n, j) (List.mem_cons_self _ _)
    have ht := ih (fun y hy => h1 y (List.mem_cons_of_mem _ hy))
    simp [runSeq, ha, ht]

theorem runSeq_error_split (l : List (String × JoinResult)) (e : String)
    (h : (runSeq l).1 = Except.error e) :
    ∃ l1 x l2, l = l1 ++ x :: l2 ∧ (∀ y ∈ l1, process_handle y.1 y.2 = Except.ok ()) ∧
      process_handle x.1 x.2 = Except.error e ∧
      (runSeq l).2 = l1.map Prod.fst ++ [x.1] := by
  induction l with
  | nil => simp [runSeq] at h
  | cons a rest ih =>
    obtain ⟨n, j⟩ := a
    cases hph : process_handle n j with
    | error e0 =>
      have he : e0 = e := by
        simpa [runSeq, hph] using h
      subst he
      refine ⟨[], (n, j), rest, by simp, by simp, hph, ?_⟩
      simp [runSeq, hph]
    | ok u =>
      cases u
      have h' : (runSeq rest).1 = Except.error e := by
        simpa [runSeq, hph] using h
      obtain ⟨l1, x, l2, hl, hok, hx, hex⟩ := ih h'
      refine ⟨(n, j) :: l1, x, l2, by simp [hl], ?_, hx, ?_⟩
      · intro y hy
        rcases List.mem_cons.mp hy with rfl | hy'
        · exact hph
        · exact hok y hy'
      · simp [runSeq, hph, hex]

theorem runSeq_exec_mem (l : List (String × JoinResult)) (x : String)
    (h : x ∈ (runSeq l).2) : x ∈ l.map Prod.fst := by
  induction l with
  | nil => simp [runSeq] at h
  | cons a rest ih =>
    obtain ⟨n, j⟩ := a
    cases hph : process_handle n j with
    | error e =>
      simp [runSeq, hph] at h
      simp [h]
    | ok u =>
      cases u
      simp [runSeq, hph] at h
      rcases h with rfl | h'
      · simp
      · simp [ih h']

theorem runSeq_ok_exec (l : List (String × JoinResult))
    (h : (runSeq l).1 = Except.ok ()) : (runSeq l).2 = l.map Prod.fst := by
  induction l with
  | nil => simp [runSeq]
  | cons a rest ih =>
    obtain ⟨n, j⟩ := a
    cases hph : process_handle n j with
    | error e => simp [runSeq, hph] at h
    | ok u =>
      cases u
      have h' : (runSeq rest).1 = Except.ok () := by simpa [runSeq, hph] using h
      simp [runSeq, hph, ih h']

theorem all_instrs_loop_exit {σ : Type} (M : CpuModel σ) :
    ∀ (k : Nat) (st : Nat → σ) (fuel : Nat), k + 1 ≤ fuel →
      (∀ i, i ≤ k → M.step (st i) = (none, st (i + 1))) →
      (∀ j, 1 ≤ j → j ≤ k → early_exit (read_status_string (M.mem (st j))) = false) →
      early_exit (read_status_string (M.mem (st (k + 1)))) = true →
      all_instrs_loop M fuel (st 0) = (Except.ok (st (k + 1)), k + 1) := by
  intro k
  induction k with
  | zero =>
    intro st fuel hf hstep hno hex
    obtain ⟨f, rfl⟩ : ∃ f, fuel = f + 1 := ⟨fuel - 1, by omega⟩
    simp [all_instrs_loop, hstep 0 (Nat.le_refl 0), hex]
  | succ k ih =>
    intro st fuel hf hstep hno hex
    obtain ⟨f, rfl⟩ : ∃ f, fuel = f + 1 := ⟨fuel - 1, by omega⟩
    have h1 := hstep 0 (Nat.zero_le _)
    have hn1 : early_exit (read_status_string (M.mem (st 1))) = false :=
      hno 1 (Nat.le_refl 1) (by omega)
    have hrec := ih (fun i => st (i + 1)) f (by omega)
      (fun i hi => hstep (i + 1) (by omega))
      (fun j hj1 hj2 => hno (j + 1) (by omega) (by omega))
      hex
    simp only [all_instrs_loop, h1, hn1, Bool.false_eq_true, if_false]
    simp only at hrec
    simp [hrec]

theorem all_instrs_loop_count_pos {σ : Type} (M : CpuModel σ) (fuel : Nat) (s : σ)
    (h : 1 ≤ fuel) : 1 ≤ (all_instrs_loop M fuel s).2 := by
  obtain ⟨f, rfl⟩ : ∃ f, fuel = f + 1 := ⟨fuel - 1, by omega⟩
  rcases hs : M.step s with ⟨o, s1⟩
  cases o with
  | some e1 => simp [all_instrs_loop, hs]
  | none =>
    cases hex : early_exit (read_status_string (M.mem s1)) with
    | true => simp [all_instrs_loop, hs, hex]
    | false => simp [all_instrs_loop, hs, hex]

/-- C1: for every memory whose three magic bytes at 0x6001..0x6003 are
0xde, 0xb0, 0x61, the magic-prefixed decoder returns Pass (Ok) iff the
status byte at 0x6000 is 0, and for a nonzero status byte it returns the
reported-failure variant whose diagnostic is the numeric status code
followed by the NUL-terminated text read from 0x6004. -/
theorem c1_magic_decoder (m : Mem)
    (h1 : (m 0x6001).val = 0xde) (h2 : (m 0x6002).val = 0xb0) (h3 : (m 0x6003).val = 0x61) :
    (all_instrs_status_code m = Except.ok () ↔ (m 0x6000).val = 0) ∧
    ((m 0x6000).val ≠ 0 →
      all_instrs_status_code m =
        Except.error (TestError.String ("exited with status " ++ toString (m 0x6000).val ++ (":\n " ++ read_status_string m)))) := by
  constructor
  · by_cases h0 : (m 0x6000).val = 0
    · simp [all_instrs_status_code, h1, h2, h3, h0]
    · simp [all_instrs_status_code, h1, h2, h3, h0]
  · intro h0
    simp [all_instrs_status_code, h1, h2, h3, h0]

theorem c1_magic_decoder_witness :
    all_instrs_status_code (mkRecord 0 []) = Except.ok () ∧
    all_instrs_status_code (mkRecord 5 (strBytes ("Hi"))) =
      Except.error (TestError.String ("exited with status " ++ toString ((mkRecord 5 (strBytes ("Hi"))) 0x6000).val ++ (":\n " ++ read_status_string (mkRecord 5 (strBytes ("Hi")))))) :=
  ⟨(c1_magic_decoder (mkRecord 0 []) rfl rfl rfl).1.mpr rfl,
   (c1_magic_decoder (mkRecord 5 (strBytes ("Hi"))) rfl rfl rfl).2 (by decide)⟩

/-- C2 counterexample: with the third magic byte altered to 0x62, the
decoder yields the corruption error in the `TestError.String` variant —
the same variant as a reported test failure, surfaced by `process_handle`
through the reported-failure channel — and not as the Custom
(harness-level) variant the claim requires. -/
theorem c2_corruption_counterexample :
    all_instrs_status_code badMagicMem =
      Except.error (TestError.String ("invalid magic sequence: deb062. the test output was corrupted")) ∧
    errIsCustom (all_instrs_status_code badMagicMem) = false ∧
    process_handle ("all instructions") (JoinResult.ok (all_instrs_status_code badMagicMem)) =
      Except.error ("cpu didn\x27t pass test all instructions: \x27invalid magic sequence: deb062. the test output was corrupted\x27") :=
  ⟨rfl, rfl, rfl⟩

/-- C2 amended: for any altered magic byte the decoder fails with the
corruption error regardless of the status byte, but the error is carried
in the `TestError.String` variant — the reported-test-failure channel,
surfaced as a did-not-pass message — not as a harness-level error. -/
theorem c2_corruption_amended (m : Mem) (name : String)
    (hbad : (m 0x6001).val ≠ 0xde ∨ (m 0x6002).val ≠ 0xb0 ∨ (m 0x6003).val ≠ 0x61) :
    all_instrs_status_code m =
      Except.error (TestError.String ("invalid magic sequence: " ++ hexStr (m 0x6001).val ++ hexStr (m 0x6002).val ++ hexStr (m 0x6003).val ++ ". the test output was corrupted")) ∧
    errIsCustom (all_instrs_status_code m) = false ∧
    process_handle name (JoinResult.ok (all_instrs_status_code m)) =
      Except.error ("cpu didn\x27t pass test " ++ name ++ (": \x27" ++ ("invalid magic sequence: " ++ hexStr (m 0x6001).val ++ hexStr (m 0x6002).val ++ hexStr (m 0x6003).val ++ ". the test output was corrupted") ++ "\x27")) := by
  have hd : all_instrs_status_code m =
      Except.error (TestError.String ("invalid magic sequence: " ++ hexStr (m 0x6001).val ++ hexStr (m 0x6002).val ++ hexStr (m 0x6003).val ++ ". the test output was corrupted")) := by
    simp only [all_instrs_status_code]
    rw [if_pos hbad]
  refine ⟨hd, ?_, ?_⟩
  · rw [hd]
    rfl
  · rw [hd]
    rfl

theorem c2_corruption_witness :
    all_instrs_status_code badMagicMem2 =
      Except.error (TestError.String ("invalid magic sequence: " ++ hexStr ((badMagicMem2 : Mem) 0x6001).val ++ hexStr ((badMagicMem2 : Mem) 0x6002).val ++ hexStr ((badMagicMem2 : Mem) 0x6003).val ++ ". the test output was corrupted")) ∧
    errIsCustom (all_instrs_status_code badMagicMem2) = false ∧
    process_handle ("nrom_test") (JoinResult.ok (all_instrs_status_code badMagicMem2)) =
      Except.error ("cpu didn\x27t pass test " ++ "nrom_test" ++ (": \x27" ++ ("invalid magic sequence: " ++ hexStr ((badMagicMem2 : Mem) 0x6001).val ++ hexStr ((badMagicMem2 : Mem) 0x6002).val ++ hexStr ((badMagicMem2 : Mem) 0x6003).val ++ ". the test output was corrupted") ++ "\x27")) :=
  c2_corruption_amended badMagicMem2 ("nrom_test") (Or.inl (by decide))

/-- C3 amended: when the decoded diagnostic first contains the failure
marker after chunk k+1 (with k+1 < limit), the runner does skip the
remaining loop chunks, but then performs exactly one more stepping call
(the final run of src/lib.rs line 116) — k+2 stepping calls in total, not
k+1 — and returns the outcome decoded after that final call, not the one
decoded at the early-exit chunk. -/
theorem c3_polling_extra_chunk {σ : Type} (M : CpuModel σ) (k limit : Nat) (st : Nat → σ)
    (hlim : k + 1 < limit)
    (hstep : ∀ i, i ≤ k → M.step (st i) = (none, st (i + 1)))
    (hno : ∀ j, 1 ≤ j → j ≤ k → early_exit (read_status_string (M.mem (st j))) = false)
    (hex : early_exit (read_status_string (M.mem (st (k + 1)))) = true)
    (hfin : M.step (st (k + 1)) = (none, st (k + 2))) :
    all_instrs_run M limit (st 0) = (all_instrs_status_code (M.mem (st (k + 2))), k + 2) := by
  have hloop := all_instrs_loop_exit M k st limit (by omega) hstep hno hex
  simp [all_instrs_run, hloop, hfin]

/-- C3 counterexample: with `C3model` the decoded diagnostic contains the
failure marker after chunk 2 of a limit of 10, yet the runner performs 3
stepping calls in total — a further stepping chunk is executed after chunk
2 — and it returns the failure decoded after that extra chunk
("Failed #2"), not the Fail decoded at chunk 2 ("Failed"). -/
theorem c3_polling_counterexample :
    early_exit (read_status_string (C3model.mem 2)) = true ∧
    all_instrs_status_code (C3model.mem 2) =
      Except.error (TestError.String ("exited with status 1:\n Failed")) ∧
    all_instrs_run C3model 10 0 =
      (Except.error (TestError.String ("exited with status 1:\n Failed #2")), 3) :=
  ⟨rfl, rfl, rfl⟩

theorem c3_polling_witness :
    all_instrs_run C3model 10 0 = (all_instrs_status_code (C3model.mem 3), 3) := by
  have h := c3_polling_extra_chunk C3model 1 10 (fun i => i) (by omega)
    (fun i _ => rfl)
    (fun j hj1 hj2 => by
      have hj : j = 1 := by omega
      subst hj
      decide)
    (by decide) rfl
  exact h

/-- C4 counterexample: after chunk 1 the decoded text is a two-line string
whose first line is "ok" and whose second line holds the marker; the
spec-worded first-line predicate is false there, yet the loop breaks
immediately — 2 stepping calls in total out of a limit of 10 — so a marker
appearing only in a later line does trigger early exit. -/
theorem c4_first_line_counterexample :
    read_status_string (C4model.mem 1) = "ok\nFailed" ∧
    firstLine (read_status_string (C4model.mem 1)) = "ok" ∧
    spec_early_exit (read_status_string (C4model.mem 1)) = false ∧
    early_exit (read_status_string (C4model.mem 1)) = true ∧
    (all_instrs_run C4model 10 0).2 = 2 :=
  ⟨rfl, rfl, by decide, by decide, rfl⟩

/-- C4 amended: the early-exit predicate of the polling loop holds iff the
whole decoded diagnostic text contains the marker word, wherever it
appears: with at least two chunks of fuel left, the loop stops right after
a successful chunk exactly when the text decoded after it contains
"Failed" anywhere (first line or later). -/
theorem c4_whole_text_exit {σ : Type} (M : CpuModel σ) (s s1 : σ) (f : Nat)
    (hs : M.step s = (none, s1)) :
    all_instrs_loop M (f + 2) s = (Except.ok s1, 1) ↔
      containsSub (read_status_string (M.mem s1)) ("Failed") = true := by
  constructor
  · intro h
    cases hex : early_exit (read_status_string (M.mem s1)) with
    | true => exact hex
    | false =>
      exfalso
      have hc := all_instrs_loop_count_pos M (f + 1) s1 (by omega)
      simp only [all_instrs_loop, hs, hex, Bool.false_eq_true, if_false] at h
      have h2 : (all_instrs_loop M (f + 1) s1).2 + 1 = 1 := congrArg Prod.snd h
      omega
  · intro hex
    simp [all_instrs_loop, hs, early_exit, hex]

theorem c4_whole_text_witness :
    all_instrs_loop C4model 10 0 = (Except.ok 1, 1) :=
  (c4_whole_text_exit C4model 0 1 8 rfl).mpr (by decide)

/-- C5: the orchestrator runs exactly the selected tests in the fixed
catalog order; it returns success iff every selected test passes, and
whenever it returns an error the enabled tests split into a run of
passing tests, the failing test and an unexecuted remainder: exactly the
passing tests plus the failing test were executed (no test after it), and the
returned error message contains the failing test name. -/
theorem c5_fail_fast (h : HarnessRun) (sel : Nat) :
    ((run_tests h sel).1 = Except.ok () ↔
      ∀ x ∈ enabledTests h sel, process_handle x.1 x.2 = Except.ok ()) ∧
    (∀ e, (run_tests h sel).1 = Except.error e →
      ∃ l1 x l2, enabledTests h sel = l1 ++ x :: l2 ∧
        (∀ y ∈ l1, process_handle y.1 y.2 = Except.ok ()) ∧
        process_handle x.1 x.2 = Except.error e ∧
        (run_tests h sel).2 = l1.map Prod.fst ++ [x.1] ∧
        containsSub e x.1 = true) := by
  constructor
  · exact runSeq_ok_iff (enabledTests h sel)
  · intro e he
    obtain ⟨l1, x, l2, hl, hok, hx, hex⟩ := runSeq_error_split (enabledTests h sel) e he
    exact ⟨l1, x, l2, hl, hok, hx, hex, process_handle_error_contains x.1 x.2 e hx⟩

theorem c5_fail_fast_witness :
    (run_tests hDemo5 TestSelector.ALL).1 =
      Except.error ("cpu didn\x27t pass test nestest: \x27oops\x27") ∧
    ∃ l1 x l2, enabledTests hDemo5 TestSelector.ALL = l1 ++ x :: l2 ∧
      (∀ y ∈ l1, process_handle y.1 y.2 = Except.ok ()) ∧
      process_handle x.1 x.2 = Except.error ("cpu didn\x27t pass test nestest: \x27oops\x27") ∧
      (run_tests hDemo5 TestSelector.ALL).2 = l1.map Prod.fst ++ [x.1] ∧
      containsSub ("cpu didn\x27t pass test nestest: \x27oops\x27") x.1 = true :=
  ⟨rfl, (c5_fail_fast hDemo5 TestSelector.ALL).2 ("cpu didn\x27t pass test nestest: \x27oops\x27") rfl⟩

/-- C6 amended: when the stepping engine reports a crash/timeout, the
runner does first consult the status decoder, but the reported outcome is
always the Custom (harness-level) error wrapping the engine message: when
the secondary decode yields an error, its text is merely appended as a
possibly-due-to hint; the decoded Fail itself is never the reported
outcome.  The same shape holds for the nestest runner. -/
theorem c6_crash_decode_amended {σ : Type} (M : CpuModel σ) (s s1 : σ) (e1 : String) (f : Nat)
    (hs : M.step s = (some e1, s1)) :
    (∀ e2, all_instrs_status_code (M.mem s1) = Except.error e2 →
      all_instrs_loop M (f + 1) s =
        (Except.error (TestError.Custom (e1 ++ (", possibly due to a test that didn\x27t pass: \x27" ++ TestError.msg e2 ++ "\x27"))), 1)) ∧
    (all_instrs_status_code (M.mem s1) = Except.ok () →
      all_instrs_loop M (f + 1) s = (Except.error (TestError.Custom e1), 1)) ∧
    (∀ e3, nestest_decode (M.mem s1) = Except.error e3 →
      nestest_run M s =
        Except.error (TestError.Custom (e1 ++ (", possibly due to a test that didn\x27t pass: \x27" ++ TestError.msg e3 ++ "\x27")))) := by
  refine ⟨?_, ?_, ?_⟩
  · intro e2 h2
    simp [all_instrs_loop, hs, stepFailError, h2]
  · intro h2
    simp [all_instrs_loop, hs, stepFailError, h2]
  · intro e3 h3
    simp [nestest_run, hs, h3]

/-- C6 counterexample: with `C6model` the engine crashes in chunk 1 while
memory decodes to a definitive Fail; the claim requires that Fail to be
the reported outcome, but the runner reports the Custom harness-level
error wrapping the engine message, with the decode only appended as a
hint. -/
theorem c6_crash_decode_counterexample :
    all_instrs_status_code (C6model.mem 1) =
      Except.error (TestError.String ("exited with status 1:\n Bad")) ∧
    all_instrs_run C6model 10 0 =
      (Except.error (TestError.Custom ("engine reported a crash, possibly due to a test that didn\x27t pass: \x27exited with status 1:\n Bad\x27")), 1) ∧
    errIsCustom (all_instrs_run C6model 10 0).1 = true :=
  ⟨rfl, rfl, rfl⟩

theorem c6_crash_decode_witness :
    all_instrs_loop C6wModel 10 0 =
      (Except.error (TestError.Custom ("engine reported a crash" ++ (", possibly due to a test that didn\x27t pass: \x27" ++ TestError.msg (TestError.String ("exited with status 1:\n Bad")) ++ "\x27"))), 1) ∧
    nestest_run C6wModel 0 =
      Except.error (TestError.Custom ("engine reported a crash" ++ (", possibly due to a test that didn\x27t pass: \x27" ++ TestError.msg (TestError.String ("nestest exited with unknown result code 4")) ++ "\x27"))) := by
  have h := c6_crash_decode_amended C6wModel 0 1 ("engine reported a crash") 9 rfl
  exact ⟨h.1 (TestError.String ("exited with status 1:\n Bad")) rfl,
         h.2.2 (TestError.String ("nestest exited with unknown result code 4")) rfl⟩

/-- C7: whenever an enabled test thread panicked (the processor under test
raised an unrecoverable fault during the test) and every enabled test
before it passed, run_tests still returns normally: the fault is converted
at the join boundary into a harness-level error naming the running test
and carrying the captured panic message (or the placeholder when none is
available), and the tests after it are not executed — nothing propagates
past the runner boundary. -/
theorem c7_panic_isolation (h : HarnessRun) (sel : Nat)
    (l1 l2 : List (String × JoinResult)) (n : String) (p : Option String)
    (hsplit : enabledTests h sel = l1 ++ (n, JoinResult.panicked p) :: l2)
    (hok : ∀ y ∈ l1, process_handle y.1 y.2 = Except.ok ()) :
    run_tests h sel =
      (Except.error ("cpu implementation panicked while running test " ++ n ++ (": " ++ p.getD ("<No panic info>"))),
       l1.map Prod.fst ++ [n]) ∧
    containsSub ("cpu implementation panicked while running test " ++ n ++ (": " ++ p.getD ("<No panic info>"))) n = true := by
  constructor
  · have hfail := runSeq_fail_at l1 (n, JoinResult.panicked p) l2
      ("cpu implementation panicked while running test " ++ n ++ (": " ++ p.getD ("<No panic info>"))) hok rfl
    simp only [run_tests]
    rw [hsplit]
    exact hfail
  · exact containsSub_mid _ _ _

theorem c7_panic_isolation_witness :
    run_tests hPanic 9 =
      (Except.error ("cpu implementation panicked while running test " ++ "nrom_test" ++ (": " ++ (some ("index out of bounds") : Option String).getD ("<No panic info>"))),
       ([("nestest", JoinResult.ok (Except.ok ()))] : List (String × JoinResult)).map Prod.fst ++ ["nrom_test"]) ∧
    containsSub ("cpu implementation panicked while running test " ++ "nrom_test" ++ (": " ++ (some ("index out of bounds") : Option String).getD ("<No panic info>"))) ("nrom_test") = true :=
  c7_panic_isolation hPanic 9 [("nestest", JoinResult.ok (Except.ok ()))] [] ("nrom_test")
    (some ("index out of bounds")) rfl
    (fun y hy => by
      rw [List.mem_singleton] at hy
      subst hy
      rfl)

/-- C8: with no explicit selection the selector defaults to DEFAULT, the
union of OFFICIAL_INSTRS and NROM_TEST; exactly the official-only
instruction suite and the nrom smoke test are enabled (in that order),
NESTEST and ALL_INSTRS are not selected, no test outside the curated
subset is ever executed, and a fully passing default run executes exactly
the two curated tests. -/
theorem c8_default_selection (h : HarnessRun) :
    TestSelector.default = TestSelector.DEFAULT ∧
    (enabledTests h TestSelector.default).map Prod.fst = [testName true, "nrom_test"] ∧
    TestSelector.contains TestSelector.default TestSelector.NESTEST = false ∧
    TestSelector.contains TestSelector.default TestSelector.ALL_INSTRS = false ∧
    (∀ x ∈ (run_tests h TestSelector.default).2, x = testName true ∨ x = "nrom_test") ∧
    ((run_tests h TestSelector.default).1 = Except.ok () →
      (run_tests h TestSelector.default).2 = [testName true, "nrom_test"]) := by
  have e : (enabledTests h TestSelector.default).map Prod.fst = [testName true, "nrom_test"] := by
    simp +decide [enabledTests, catalog, TestSelector.contains, TestSelector.default,
      TestSelector.DEFAULT, TestSelector.NESTEST, TestSelector.ALL_INSTRS,
      TestSelector.OFFICIAL_INSTRS, TestSelector.NROM_TEST, List.filterMap_cons]
  refine ⟨rfl, e, by decide, by decide, ?_, ?_⟩
  · intro x hx
    have hmem := runSeq_exec_mem (enabledTests h TestSelector.default) x hx
    rw [e] at hmem
    simpa using hmem
  · intro hok
    have he := runSeq_ok_exec (enabledTests h TestSelector.default) hok
    rw [e] at he
    exact he

theorem c8_default_selection_witness :
    (run_tests hAllOk TestSelector.default).2 = [testName true, "nrom_test"] :=
  (c8_default_selection hAllOk).2.2.2.2.2 rfl

/-- C9: the two-byte result-code decoder forms the 16-bit value from the
low byte read at 0x0002 and the high byte read at 0x0003; it yields Pass
iff that value is the designated success value, and for any other value it
yields the reported-failure variant whose diagnostic contains the literal
observed value. -/
theorem c9_nestest_decoder (low high : Byte) :
    (nestest_status_code low high = Except.ok () ↔ low.val + 256 * high.val = 0) ∧
    (low.val + 256 * high.val ≠ 0 →
      ∃ d, nestest_status_code low high = Except.error (TestError.String d) ∧
        containsSub d (toString (low.val + 256 * high.val)) = true) := by
  constructor
  · by_cases h0 : low.val + 256 * high.val = 0
    · simp [nestest_status_code, h0]
    · simp [nestest_status_code, h0]
  · intro h0
    refine ⟨"nestest exited with unknown result code " ++ toString (low.val + 256 * high.val), ?_, ?_⟩
    · simp [nestest_status_code, h0]
    · exact containsSub_of_within _ _
        ⟨("nestest exited with unknown result code ").data, [], by simp⟩

theorem c9_nestest_decoder_witness :
    nestest_status_code 0 0 = Except.ok () ∧
    ∃ d, nestest_status_code 4 1 = Except.error (TestError.String d) ∧
      containsSub d (toString ((4 : Byte).val + 256 * (1 : Byte).val)) = true :=
  ⟨(c9_nestest_decoder 0 0).1.mpr rfl, (c9_nestest_decoder 4 1).2 (by decide)⟩

/-- C10: the ALL preset is exactly the union of NESTEST, ALL_INSTRS and
NROM_TEST; it does not contain the OFFICIAL_INSTRS bit (which DEFAULT
does), so under ALL the official-only instruction run is never enabled and
never executed, while the other three catalog tests are the enabled ones. -/
theorem c10_all_skips_official :
    TestSelector.ALL = (TestSelector.NESTEST ||| TestSelector.ALL_INSTRS ||| TestSelector.NROM_TEST) ∧
    TestSelector.contains TestSelector.ALL TestSelector.OFFICIAL_INSTRS = false ∧
    TestSelector.contains TestSelector.DEFAULT TestSelector.OFFICIAL_INSTRS = true ∧
    (∀ h : HarnessRun, (enabledTests h TestSelector.ALL).map Prod.fst = [testName false, "nestest", "nrom_test"]) ∧
    (∀ h : HarnessRun, testName true ∉ (run_tests h TestSelector.ALL).2) := by
  have e : ∀ h : HarnessRun,
      (enabledTests h TestSelector.ALL).map Prod.fst = [testName false, "nestest", "nrom_test"] := by
    intro h
    simp +decide [enabledTests, catalog, TestSelector.contains, TestSelector.ALL,
      TestSelector.NESTEST, TestSelector.ALL_INSTRS, TestSelector.OFFICIAL_INSTRS,
      TestSelector.NROM_TEST, List.filterMap_cons]
  refine ⟨rfl, by decide, by decide, e, ?_⟩
  intro h hmem
  have hx := runSeq_exec_mem (enabledTests h TestSelector.ALL) (testName true) hmem
  rw [e h] at hx
  exact absurd hx (by decide)
